import Mathlib

/-!
Verification of the ZHVI animation generator (`zillowgif.py`).

The file shallowly embeds the pure logic of the script:

* the Frame Sampler (stride choice and sampled indices, lines 109-131),
* the Animation Encoder's per-frame duration rule (lines 164-169),
* the Chart Renderer's y-axis bound computation (lines 121-138),
* the Series Extractor (region lookup, date-column discovery and the
  error paths, lines 60-96),
* the Dataset Fetcher's cache check (lines 44-48 and 17-37),
* the output filename rule (line 161).

Machine floats of the script are modelled by exact rationals; the pandas
data frame by an explicit structure of rows and column headers; the
network and file system by an explicit fetch state.
-/

namespace ZillowGif

/-! ### Frame Sampler (lines 109-114 and 129) -/

/-- `max_frames_for_gif = 150`, the fixed frame budget of the script. -/
def max_frames_for_gif : Nat := 150

/-- The stride chosen at lines 110-113: `frame_step = 1`, and when
`num_points > max_frames_for_gif` it becomes
`max(1, num_points // max_frames_for_gif)`. -/
def frame_step (num_points : Nat) : Nat :=
  if num_points > max_frames_for_gif then
    max 1 (num_points / max_frames_for_gif)
  else 1

/-- The sampled frame indices, `range(0, num_points, frame_step)` of
line 129: `0, S, 2S, ...` strictly below `num_points`.  A Python range
with positive step `S` and stop `N` has `⌈N / S⌉` elements. -/
def frameIndices (num_points : Nat) : List Nat :=
  let S := frame_step num_points
  (List.range ((num_points + S - 1) / S)).map (fun k => k * S)

theorem frame_step_pos (N : Nat) : 0 < frame_step N := by
  unfold frame_step
  split
  · exact lt_of_lt_of_le Nat.one_pos (Nat.le_max_left _ _)
  · exact Nat.one_pos

theorem frame_step_of_le (N : Nat) (h : N ≤ 150) : frame_step N = 1 := by
  unfold frame_step max_frames_for_gif
  rw [if_neg (by omega)]

theorem frame_step_of_gt (N : Nat) (h : 150 < N) :
    frame_step N = max 1 (N / 150) := by
  unfold frame_step max_frames_for_gif
  rw [if_pos (by omega)]

theorem frameIndices_length (N : Nat) (hN : 1 ≤ N) :
    (frameIndices N).length = (N - 1) / frame_step N + 1 := by
  have hS := frame_step_pos N
  unfold frameIndices
  rw [List.length_map, List.length_range]
  have h1 : N + frame_step N - 1 = (N - 1) + frame_step N := by omega
  rw [h1, Nat.add_div_right _ hS]

theorem mem_frameIndices_iff (N : Nat) (hN : 1 ≤ N) (i : Nat) :
    i ∈ frameIndices N ↔ frame_step N ∣ i ∧ i < N := by
  have hS := frame_step_pos N
  unfold frameIndices
  simp only [List.mem_map, List.mem_range]
  constructor
  · rintro ⟨k, hk, rfl⟩
    refine ⟨Dvd.intro_left k rfl, ?_⟩
    have h1 : N + frame_step N - 1 = (N - 1) + frame_step N := by omega
    rw [h1, Nat.add_div_right _ hS] at hk
    have hk' : k ≤ (N - 1) / frame_step N := by omega
    have := (Nat.le_div_iff_mul_le hS).mp hk'
    omega
  · rintro ⟨⟨k, rfl⟩, hlt⟩
    refine ⟨k, ?_, Nat.mul_comm k (frame_step N) ▸ rfl⟩
    have h1 : N + frame_step N - 1 = (N - 1) + frame_step N := by omega
    rw [h1, Nat.add_div_right _ hS]
    have hk' : k * frame_step N ≤ N - 1 := by
      have := Nat.mul_comm (frame_step N) k
      omega
    have := (Nat.le_div_iff_mul_le hS).mpr hk'
    omega

theorem frameIndices_sorted (N : Nat) :
    (frameIndices N).Pairwise (· < ·) := by
  have hS := frame_step_pos N
  unfold frameIndices
  refine List.Pairwise.map _ (fun a b hab => ?_) (List.pairwise_lt_range _)
  exact (Nat.mul_lt_mul_right hS).mpr hab

theorem frameIndices_head (N : Nat) (hN : 1 ≤ N) :
    (frameIndices N).head? = some 0 := by
  have hS := frame_step_pos N
  unfold frameIndices
  rw [List.head?_map]
  have h1 : N + frame_step N - 1 = (N - 1) + frame_step N := by omega
  rw [h1, Nat.add_div_right _ hS]
  rw [List.range_succ_eq_map]
  simp

theorem frameIndices_of_le (N : Nat) (h : N ≤ 150) :
    frameIndices N = List.range N := by
  unfold frameIndices
  rw [frame_step_of_le N h]
  simp

/-- C1 as stated is false: for `N = 151` the stride is
`max(1, 151 // 150) = 1` and the sampler emits 151 > 150 indices. -/
theorem frame_budget_counterexample :
    ¬ ((frameIndices 151).length ≤ 150) := by
  have h : (frameIndices 151).length = 151 := by
    rw [frameIndices_length 151 (by norm_num)]
    rw [frame_step_of_gt 151 (by norm_num)]
    norm_num
  omega

/-- C1 (amended): the sampler emits at most `2*B - 1 = 299` frame
indices for every series length `N ≥ 1`; for `N ≤ B = 150` it emits
exactly `N` of them, and the budget of 150 can be exceeded whenever
`N > 150`. -/
theorem frame_count_bound (N : Nat) (hN : 1 ≤ N) :
    (frameIndices N).length ≤ 299 ∧
      (N ≤ 150 → (frameIndices N).length = N) := by
  constructor
  · rw [frameIndices_length N hN]
    by_cases hcase : N ≤ 299
    · have := Nat.div_le_self (N - 1) (frame_step N)
      omega
    · -- N ≥ 300, hence frame_step N = N / 150 ≥ 2
      have h150 : 150 < N := by omega
      have hq2 : 2 ≤ N / 150 := (Nat.le_div_iff_mul_le (by norm_num)).mpr (by omega)
      have hS : frame_step N = N / 150 := by
        rw [frame_step_of_gt N h150]
        omega
      have hub : N ≤ 150 * (N / 150) + 149 := by
        have hmod : N % 150 < 150 := Nat.mod_lt _ (by norm_num)
        have := Nat.div_add_mod N 150
        omega
      have hlt : (N - 1) / (N / 150) < 299 := by
        rw [Nat.div_lt_iff_lt_mul (by omega)]
        have : 150 * (N / 150) + 149 ≤ 299 * (N / 150) := by
          have h149 : 149 * 1 ≤ 149 * (N / 150) :=
            Nat.mul_le_mul_left 149 (by omega)
          omega
        omega
      rw [hS]
      omega
  · intro h150
    rw [frameIndices_length N hN, frame_step_of_le N h150]
    omega

/-- Witness for C1 (amended), at `N = 100` and `N = 299`. -/
theorem frame_count_bound_cases :
    (frameIndices 100).length = 100 ∧ (frameIndices 299).length ≤ 299 :=
  ⟨(frame_count_bound 100 (by norm_num)).2 (by norm_num),
   (frame_count_bound 299 (by norm_num)).1⟩

/-- C2: the stride is 1 for `N ≤ B = 150` and `max(1, N / 150)`
otherwise; the sampled indices are exactly the multiples of the stride
below `N`, strictly increasing and starting at 0; for `N ≤ 150` they
are all of `0 .. N-1`. -/
theorem frame_sampler_spec (N : Nat) (hN : 1 ≤ N) :
    (N ≤ 150 → frame_step N = 1) ∧
      (150 < N → frame_step N = max 1 (N / 150)) ∧
      (∀ i, i ∈ frameIndices N ↔ frame_step N ∣ i ∧ i < N) ∧
      (frameIndices N).Pairwise (· < ·) ∧
      (frameIndices N).head? = some 0 ∧
      (N ≤ 150 → frameIndices N = List.range N) :=
  ⟨frame_step_of_le N, frame_step_of_gt N, mem_frameIndices_iff N hN,
   frameIndices_sorted N, frameIndices_head N hN, frameIndices_of_le N⟩

/-- Witness for C2 at `N = 7`: stride 1, indices `0..6`. -/
theorem frame_sampler_spec_at_7 :
    frame_step 7 = 1 ∧ frameIndices 7 = List.range 7 :=
  ⟨(frame_sampler_spec 7 (by norm_num)).1 (by norm_num),
   (frame_sampler_spec 7 (by norm_num)).2.2.2.2.2 (by norm_num)⟩

/-- C10: the largest sampled index is `(N-1) - ((N-1) mod S)`, and the
final data point `N-1` is rendered iff the stride divides `N-1`. -/
theorem last_frame_index (N : Nat) (hN : 1 ≤ N) :
    ((N - 1) - (N - 1) % frame_step N) ∈ frameIndices N ∧
      (∀ i ∈ frameIndices N, i ≤ (N - 1) - (N - 1) % frame_step N) ∧
      ((N - 1) ∈ frameIndices N ↔ frame_step N ∣ (N - 1)) := by
  have hS := frame_step_pos N
  have hdm := Nat.div_add_mod (N - 1) (frame_step N)
  have hmod : (N - 1) % frame_step N ≤ N - 1 := Nat.mod_le _ _
  refine ⟨?_, ?_, ?_⟩
  · rw [mem_frameIndices_iff N hN]
    constructor
    · refine ⟨(N - 1) / frame_step N, ?_⟩
      omega
    · omega
  · intro i hi
    rw [mem_frameIndices_iff N hN] at hi
    obtain ⟨⟨k, rfl⟩, hlt⟩ := hi
    have hk : k ≤ (N - 1) / frame_step N := by
      refine (Nat.le_div_iff_mul_le hS).mpr ?_
      have := Nat.mul_comm (frame_step N) k
      omega
    have := Nat.mul_le_mul_left (frame_step N) hk
    omega
  · rw [mem_frameIndices_iff N hN]
    constructor
    · exact fun h => h.1
    · intro h
      exact ⟨h, by omega⟩

/-- Witness for C10, at `N = 300`: stride 2, last sampled index 298,
index 299 omitted. -/
theorem last_frame_index_at_300 :
    frame_step 300 = 2 ∧ 298 ∈ frameIndices 300 ∧ 299 ∉ frameIndices 300 := by
  have h2 : frame_step 300 = 2 := by
    rw [frame_step_of_gt 300 (by norm_num)]
    decide
  have h := last_frame_index 300 (by norm_num)
  refine ⟨h2, ?_, ?_⟩
  · have h1 := h.1
    rw [h2] at h1
    norm_num at h1
    exact h1
  · intro hmem
    have h3 := (h.2.2).mp hmem
    rw [h2] at h3
    omega

/-! ### Animation Encoder duration rule (lines 164-169) -/

/-- Per-frame duration of lines 165-169: default `0.15`, `0.3` when
`num_actual_frames < 50`, `0.1` when `num_actual_frames > 120`. -/
def duration_per_frame (num_actual_frames : Nat) : ℚ :=
  if num_actual_frames < 50 then 0.3
  else if num_actual_frames > 120 then 0.1
  else 0.15

/-- C3: the duration is a pure function of the frame count with tiers
`< 50 ↦ 0.3 s`, `> 120 ↦ 0.1 s`, middle `↦ 0.15 s`, and the boundary
values 49, 50, 120, 121 fall on the stated tiers. -/
theorem duration_tiers (F : Nat) :
    (F < 50 → duration_per_frame F = 0.3) ∧
      (50 ≤ F → F ≤ 120 → duration_per_frame F = 0.15) ∧
      (120 < F → duration_per_frame F = 0.1) ∧
      duration_per_frame 49 = 0.3 ∧
      duration_per_frame 50 = 0.15 ∧
      duration_per_frame 120 = 0.15 ∧
      duration_per_frame 121 = 0.1 := by
  unfold duration_per_frame
  refine ⟨fun h => by rw [if_pos h], fun h1 h2 => ?_, fun h => ?_, ?_, ?_, ?_, ?_⟩
  · rw [if_neg (by omega), if_neg (by omega)]
  · rw [if_neg (by omega), if_pos (by omega)]
  · norm_num
  · norm_num
  · norm_num
  · norm_num

/-- Witness for C3 at every boundary frame count. -/
theorem duration_tiers_boundary :
    duration_per_frame 49 = 0.3 ∧ duration_per_frame 50 = 0.15 ∧
      duration_per_frame 120 = 0.15 ∧ duration_per_frame 121 = 0.1 :=
  ⟨(duration_tiers 49).1 (by norm_num),
   (duration_tiers 50).2.1 (by norm_num) (by norm_num),
   (duration_tiers 120).2.1 (by norm_num) (by norm_num),
   (duration_tiers 121).2.2.1 (by norm_num)⟩

/-! ### Chart Renderer y-axis bounds (lines 121-138) -/

/-- The y padding of lines 124-126: 5% of the value range, with the
fallback `min * 0.1` (or `10000` when the minimum is zero) when the
range is zero. -/
def y_padding (overall_min_val overall_max_val : ℚ) : ℚ :=
  let p := (overall_max_val - overall_min_val) * 0.05
  if p = 0 then
    (if overall_min_val ≠ 0 then overall_min_val * 0.1 else 10000)
  else p

/-- Lower y-axis bound of line 138. -/
def y_lower (m M : ℚ) : ℚ := m - y_padding m M

/-- Upper y-axis bound of line 138. -/
def y_upper (m M : ℚ) : ℚ := M + y_padding m M

/-- C5: the padding is 5% of the range, falls back to 10% of the
minimum (or the constant 10000 at minimum zero) on an all-equal series,
and the resulting y interval is never degenerate (never zero-height). -/
theorem y_padding_spec (m M : ℚ) :
    (M - m ≠ 0 → y_padding m M = (M - m) * 0.05) ∧
      (M - m = 0 → m ≠ 0 → y_padding m M = m * 0.1) ∧
      (M - m = 0 → m = 0 → y_padding m M = 10000) ∧
      y_lower m M ≠ y_upper m M := by
  have hp0 : (M - m) * 0.05 = 0 ↔ M - m = 0 := by
    constructor
    · intro h
      rcases mul_eq_zero.mp h with h1 | h1
      · exact h1
      · norm_num at h1
    · intro h
      rw [h, zero_mul]
  refine ⟨fun h => ?_, fun h hm => ?_, fun h hm => ?_, ?_⟩
  · unfold y_padding
    rw [if_neg (fun hc => h (hp0.mp hc))]
  · unfold y_padding
    rw [if_pos (hp0.mpr h), if_pos hm]
  · unfold y_padding
    rw [if_pos (hp0.mpr h), if_neg (by simp [hm])]
  · unfold y_lower y_upper
    intro hc
    have hsum : M - m + 2 * y_padding m M = 0 := by linarith
    by_cases hr : M - m = 0
    · by_cases hm : m = 0
      · unfold y_padding at hsum
        rw [if_pos (hp0.mpr hr), if_neg (by simp [hm])] at hsum
        rw [hr] at hsum
        norm_num at hsum
      · unfold y_padding at hsum
        rw [if_pos (hp0.mpr hr), if_pos hm] at hsum
        rw [hr] at hsum
        have : m * 0.2 = 0 := by linarith
        rcases mul_eq_zero.mp this with h1 | h1
        · exact hm h1
        · norm_num at h1
    · unfold y_padding at hsum
      rw [if_neg (fun hc' => hr (hp0.mp hc'))] at hsum
      have : (M - m) * 1.1 = 0 := by linarith
      rcases mul_eq_zero.mp this with h1 | h1
      · exact hr h1
      · norm_num at h1

/-- Witness for C5, at `(m, M) = (100, 200)`, `(7, 7)` and `(0, 0)`. -/
theorem y_padding_spec_values :
    y_padding 100 200 = (200 - 100 : ℚ) * 0.05 ∧
      y_padding 7 7 = (7 : ℚ) * 0.1 ∧
      y_padding 0 0 = 10000 :=
  ⟨(y_padding_spec 100 200).1 (by norm_num),
   (y_padding_spec 7 7).2.1 (by norm_num) (by norm_num),
   (y_padding_spec 0 0).2.2.1 (by norm_num) (by norm_num)⟩

/-- `Series.min()` of line 122 restricted to the non-null values. -/
def listMin : List ℚ → Option ℚ
  | [] => none
  | x :: xs =>
    match listMin xs with
    | none => some x
    | some m => some (min x m)

/-- `Series.max()` of line 123 restricted to the non-null values. -/
def listMax : List ℚ → Option ℚ
  | [] => none
  | x :: xs =>
    match listMax xs with
    | none => some x
    | some m => some (max x m)

theorem listMin_eq_none (l : List ℚ) : listMin l = none ↔ l = [] := by
  cases l with
  | nil => simp [listMin]
  | cons x xs =>
    unfold listMin
    cases h : listMin xs <;> simp

theorem listMax_eq_none (l : List ℚ) : listMax l = none ↔ l = [] := by
  cases l with
  | nil => simp [listMax]
  | cons x xs =>
    unfold listMax
    cases h : listMax xs <;> simp

theorem listMin_le (l : List ℚ) (m : ℚ) (hm : listMin l = some m) :
    ∀ v ∈ l, m ≤ v := by
  induction l generalizing m with
  | nil => simp [listMin] at hm
  | cons x xs ih =>
    intro v hv
    unfold listMin at hm
    rcases hx : listMin xs with _ | m'
    · rw [hx] at hm
      simp only [Option.some.injEq] at hm
      subst hm
      rcases List.mem_cons.mp hv with rfl | hv'
      · exact le_refl v
      · rw [listMin_eq_none] at hx
        subst hx
        simp at hv'
    · rw [hx] at hm
      simp only [Option.some.injEq] at hm
      subst hm
      rcases List.mem_cons.mp hv with rfl | hv'
      · exact min_le_left _ _
      · exact le_trans (min_le_right _ _) (ih m' hx v hv')

theorem le_listMax (l : List ℚ) (M : ℚ) (hM : listMax l = some M) :
    ∀ v ∈ l, v ≤ M := by
  induction l generalizing M with
  | nil => simp [listMax] at hM
  | cons x xs ih =>
    intro v hv
    unfold listMax at hM
    rcases hx : listMax xs with _ | M'
    · rw [hx] at hM
      simp only [Option.some.injEq] at hM
      subst hM
      rcases List.mem_cons.mp hv with rfl | hv'
      · exact le_refl v
      · rw [listMax_eq_none] at hx
        subst hx
        simp at hv'
    · rw [hx] at hM
      simp only [Option.some.injEq] at hM
      subst hM
      rcases List.mem_cons.mp hv with rfl | hv'
      · exact le_max_left _ _
      · exact le_trans (ih M' hx v hv') (le_max_right _ _)

/-- A rendered frame: the index of the latest included point and the
fixed y limits set at line 138. -/
structure Frame where
  upTo : Nat
  ylim : ℚ × ℚ
deriving DecidableEq, Repr

/-- The frames rendered by the loop of lines 129-153: one frame per
sampled index, all with the same y limits computed once from the whole
series. -/
def runFrames (values : List (Option ℚ)) (m M : ℚ) : List Frame :=
  (frameIndices values.length).map
    (fun i => { upTo := i, ylim := (y_lower m M, y_upper m M) })

/-- C4 as stated is false: on the all-null-free series `[-1]` the
overall min and max are both `-1`, the fallback padding `-1 * 0.1` is
negative, and the lower bound `-0.9` lies strictly above the value. -/
theorem y_bounds_counterexample :
    listMin ([some (-1 : ℚ)].filterMap id) = some (-1) ∧
      listMax ([some (-1 : ℚ)].filterMap id) = some (-1) ∧
      (-1 : ℚ) ∈ [some (-1 : ℚ)].filterMap id ∧
      ¬ (y_lower (-1) (-1) ≤ -1) := by
  refine ⟨by simp [listMin], by simp [listMax], by simp, ?_⟩
  unfold y_lower y_padding
  norm_num

/-- C4 (amended): the y limits are computed once from the whole series
and are identical on every rendered frame; and provided the overall
minimum is nonnegative (as for home-value data), every non-null series
value lies between the lower and the upper bound. -/
theorem y_bounds_stable (values : List (Option ℚ)) (m M : ℚ)
    (hm : listMin (values.filterMap id) = some m)
    (hM : listMax (values.filterMap id) = some M)
    (h0 : 0 ≤ m) :
    (∀ f ∈ runFrames values m M, f.ylim = (y_lower m M, y_upper m M)) ∧
      (∀ v ∈ values.filterMap id, y_lower m M ≤ v ∧ v ≤ y_upper m M) := by
  constructor
  · intro f hf
    unfold runFrames at hf
    obtain ⟨i, _, rfl⟩ := List.mem_map.mp hf
    rfl
  · intro v hv
    have hmv := listMin_le _ m hm v hv
    have hvM := le_listMax _ M hM v hv
    have hpad : 0 ≤ y_padding m M := by
      unfold y_padding
      by_cases hp : (M - m) * 0.05 = 0
      · rw [if_pos hp]
        by_cases hz : m = 0
        · rw [if_neg (by simp [hz])]
          norm_num
        · rw [if_pos hz]
          positivity
      · rw [if_neg hp]
        have hmM : m ≤ M := le_trans hmv hvM
        nlinarith
    unfold y_lower y_upper
    constructor
    · linarith
    · linarith

/-- Witness for C4 (amended), on the series `[100, 200]`. -/
theorem y_bounds_stable_at :
    y_lower 100 200 ≤ (100 : ℚ) ∧ (100 : ℚ) ≤ y_upper 100 200 :=
  (y_bounds_stable [some 100, some 200] 100 200
      (by norm_num [listMin]) (by norm_num [listMax]) (by norm_num)).2
    100 (by simp)

/-! ### Parsing models for `int(...)` and `datetime.strptime(..., "%Y-%m-%d")` -/

/-- Value of a run of ASCII digit characters. -/
def digitsToNat (cs : List Char) : Nat :=
  cs.foldl (fun n c => n * 10 + (c.toNat - '0'.toNat)) 0

/-- All characters are ASCII digits. -/
def allDigits (cs : List Char) : Bool :=
  cs.all (fun c => c.isDigit)

/-- Model of Python `int(str)` at line 61: surrounding whitespace is
stripped, then one optional sign followed by a nonempty digit run. -/
def pyParseInt (s : String) : Option Int :=
  let t := ((s.toList.dropWhile Char.isWhitespace).reverse.dropWhile
    Char.isWhitespace).reverse
  match t with
  | [] => none
  | c :: cs =>
    if c = '-' then
      if !cs.isEmpty && allDigits cs then some (-(digitsToNat cs : Int)) else none
    else if c = '+' then
      if !cs.isEmpty && allDigits cs then some (digitsToNat cs) else none
    else
      if allDigits (c :: cs) then some (digitsToNat (c :: cs)) else none

/-- Split a character list at every `'-'`. -/
def splitOnDash : List Char → List (List Char)
  | [] => [[]]
  | c :: cs =>
    if c = '-' then [] :: splitOnDash cs
    else
      match splitOnDash cs with
      | [] => [[c]]
      | g :: gs => (c :: g) :: gs

/-- Gregorian leap-year rule used by `datetime`. -/
def isLeapYear (y : Nat) : Bool :=
  y % 4 == 0 && (y % 100 != 0 || y % 400 == 0)

/-- Days in a month of a given year, as validated by `datetime`. -/
def daysInMonth (y m : Nat) : Nat :=
  if m = 2 then (if isLeapYear y then 29 else 28)
  else if m = 4 ∨ m = 6 ∨ m = 9 ∨ m = 11 then 30
  else 31

/-- Model of `datetime.strptime(s, "%Y-%m-%d")` succeeding (line 79):
exactly four year digits, one or two month digits with month 1..12, one
or two day digits with a day valid for that month and year, and a year
of at least 1 (`datetime.MINYEAR`). -/
def parseDateYMD (s : String) : Bool :=
  match splitOnDash s.toList with
  | [ys, ms, ds] =>
    let y := digitsToNat ys
    let m := digitsToNat ms
    let d := digitsToNat ds
    allDigits ys && (ys.length == 4) &&
      allDigits ms && (ms.length == 1 || ms.length == 2) &&
      allDigits ds && (ds.length == 1 || ds.length == 2) &&
      decide (1 ≤ y) && decide (1 ≤ m) && decide (m ≤ 12) &&
      decide (1 ≤ d) && decide (d ≤ daysInMonth y m)
  | _ => false

/-! ### Series Extractor (lines 50-96) -/

/-- One data frame row: its `RegionName` key, the `City` and `State`
attributes, and the cell content under each column header (`none`
models an empty/NaN cell). -/
structure Row where
  regionName : Int
  city : String
  state : String
  cell : String → Option ℚ

/-- The loaded CSV: ordered column headers plus rows. -/
structure DataFrame where
  columns : List String
  rows : List Row

/-- The date-column discovery loop of lines 75-83: try to parse every
header, appending the ones that parse. -/
def dateColumnsLoop : List String → List String → List String
  | [], acc => acc
  | c :: cs, acc =>
    if parseDateYMD c then dateColumnsLoop cs (acc ++ [c])
    else dateColumnsLoop cs acc

/-- `date_columns` as computed for a data frame. -/
def dateColumnsOf (df : DataFrame) : List String :=
  dateColumnsLoop df.columns []

theorem dateColumnsLoop_eq_filter (cols acc : List String) :
    dateColumnsLoop cols acc = acc ++ cols.filter parseDateYMD := by
  induction cols generalizing acc with
  | nil => simp [dateColumnsLoop]
  | cons c cs ih =>
    unfold dateColumnsLoop
    by_cases hc : parseDateYMD c
    · rw [if_pos hc, ih, List.filter_cons_of_pos hc]
      simp
    · rw [if_neg hc, ih, List.filter_cons_of_neg hc]

/-- The abort reasons of the extraction stage. -/
inductive ExtractError where
  | invalidZip
  | zipNotFound
  | noDateColumns
  | allNull
deriving DecidableEq, Repr

/-- Steps 3 and 4 of `generate_zhvi_animation` (lines 60-96): parse the
identifier, filter the rows on `RegionName`, discover the date columns
and take the matched row's series, aborting on each failure the code
checks for. -/
def extractSeries (df : DataFrame) (zip_code_str : String) :
    Except ExtractError ((List (String × Option ℚ)) × String × String) :=
  match pyParseInt zip_code_str with
  | none => .error .invalidZip
  | some z =>
    match df.rows.filter (fun r => r.regionName == z) with
    | [] => .error .zipNotFound
    | r :: _ =>
      if (dateColumnsOf df).isEmpty then .error .noDateColumns
      else if ((dateColumnsOf df).map (fun c => (c, r.cell c))).all
          (fun p => p.2.isNone) then .error .allNull
      else .ok ((dateColumnsOf df).map (fun c => (c, r.cell c)), r.city, r.state)

/-- The observable outcome of a successful run: the GIF filename of
line 161, the rendered frames, and the encoder duration of line 171. -/
structure RunOutput where
  gif_filename : String
  frames : List Frame
  duration : ℚ

/-- The whole pipeline on an already-loaded data frame: extraction,
overall min/max, frame rendering and encoding. An extraction failure
produces no animation file (`none`). -/
def generate_zhvi_animation (df : DataFrame) (zip_code_str : String) :
    Option RunOutput :=
  match extractSeries df zip_code_str with
  | .error _ => none
  | .ok (series, _, _) =>
    match listMin ((series.map Prod.snd).filterMap id),
        listMax ((series.map Prod.snd).filterMap id) with
    | some m, some M =>
      some { gif_filename := "zhvi_animation_" ++ zip_code_str ++ ".gif",
             frames := runFrames (series.map Prod.snd) m M,
             duration := duration_per_frame
               (runFrames (series.map Prod.snd) m M).length }
    | _, _ => none

/-- C8: a header is a discovered date (value) column iff it occurs
among the headers and parses as a `YYYY-MM-DD` calendar date; the
discovery loop equals a filter on that predicate.  The calendar rule is
exercised on concrete headers, including the leap-day boundary. -/
theorem date_column_rule (df : DataFrame) :
    dateColumnsOf df = df.columns.filter parseDateYMD ∧
      (∀ c, c ∈ dateColumnsOf df ↔ c ∈ df.columns ∧ parseDateYMD c = true) ∧
      parseDateYMD "2020-01-31" = true ∧
      parseDateYMD "2000-02-29" = true ∧
      parseDateYMD "2001-02-29" = false ∧
      parseDateYMD "RegionName" = false := by
  have hfil : dateColumnsOf df = df.columns.filter parseDateYMD := by
    unfold dateColumnsOf
    rw [dateColumnsLoop_eq_filter]
    simp
  refine ⟨hfil, fun c => ?_, by decide, by decide, by decide, by decide⟩
  rw [hfil, List.mem_filter]

/-- A one-row synthetic data frame used to exercise the pipeline. -/
def dfBoston : DataFrame where
  columns := ["RegionName", "City", "State", "2020-01-31"]
  rows := [{ regionName := 2134, city := "Boston", state := "MA",
             cell := fun c => if c = "2020-01-31" then some 100000 else none }]

/-- Witness for C8: on the synthetic header row only the date-shaped
header is discovered. -/
theorem date_column_rule_at :
    dateColumnsOf dfBoston = ["2020-01-31"] := by
  rw [(date_column_rule dfBoston).1]
  rfl

/-- C6: the extraction stage aborts exactly when the identifier fails
to parse as an integer, no row's `RegionName` equals the parsed key, no
header parses as a date, or every value cell of the first matched row
is null; and an abort yields no animation output. -/
theorem extract_abort_iff (df : DataFrame) (z : String) :
    ((∃ e, extractSeries df z = .error e) ↔
      pyParseInt z = none ∨
        ∃ k, pyParseInt z = some k ∧
          (df.rows.filter (fun r => r.regionName == k) = [] ∨
            dateColumnsOf df = [] ∨
            ∃ r rest, df.rows.filter (fun r => r.regionName == k) = r :: rest ∧
              ∀ c ∈ dateColumnsOf df, r.cell c = none)) ∧
      ((∃ e, extractSeries df z = .error e) →
        generate_zhvi_animation df z = none) := by
  have hallnull : ∀ r : Row,
      (((dateColumnsOf df).map (fun c => (c, r.cell c))).all
          (fun p => p.2.isNone) = true) ↔
        ∀ c ∈ dateColumnsOf df, r.cell c = none := by
    intro r
    rw [List.all_eq_true]
    constructor
    · intro h c hc
      have := h _ (List.mem_map_of_mem (fun c => (c, r.cell c)) hc)
      simpa [Option.isNone_iff_eq_none] using this
    · intro h p hp'
      obtain ⟨c, hc, rfl⟩ := List.mem_map.mp hp'
      simp [h c hc]
  constructor
  · constructor
    · rintro ⟨e, he⟩
      unfold extractSeries at he
      rcases hp : pyParseInt z with _ | k
      · exact Or.inl (by simp [hp])
      · rw [hp] at he
        dsimp only at he
        refine Or.inr ⟨k, rfl, ?_⟩
        rcases hf : df.rows.filter (fun r => r.regionName == k) with _ | ⟨r, rest⟩
        · exact Or.inl hf
        · rw [hf] at he
          dsimp only at he
          by_cases hd : (dateColumnsOf df).isEmpty
          · exact Or.inr (Or.inl (List.isEmpty_iff.mp hd))
          · rw [if_neg hd] at he
            by_cases ha : ((dateColumnsOf df).map (fun c => (c, r.cell c))).all
                (fun p => p.2.isNone)
            · exact Or.inr (Or.inr ⟨r, rest, hf, (hallnull r).mp ha⟩)
            · rw [if_neg ha] at he
              exact absurd he (by simp)
    · rintro (h | ⟨k, hk, h | h | ⟨r, rest, hf, hnull⟩⟩)
      · exact ⟨.invalidZip, by unfold extractSeries; rw [h]⟩
      · refine ⟨.zipNotFound, ?_⟩
        unfold extractSeries
        rw [hk]
        dsimp only
        rw [h]
      · rcases hf2 : df.rows.filter (fun r => r.regionName == k) with _ | ⟨r, rest⟩
        · refine ⟨.zipNotFound, ?_⟩
          unfold extractSeries
          rw [hk]
          dsimp only
          rw [hf2]
        · refine ⟨.noDateColumns, ?_⟩
          unfold extractSeries
          rw [hk]
          dsimp only
          rw [hf2]
          dsimp only
          rw [if_pos (List.isEmpty_iff.mpr h)]
      · refine ⟨?_, ?_⟩
        · exact if (dateColumnsOf df).isEmpty then .noDateColumns else .allNull
        · unfold extractSeries
          rw [hk]
          dsimp only
          rw [hf]
          dsimp only
          by_cases hd : (dateColumnsOf df).isEmpty
          · rw [if_pos hd, if_pos hd]
          · rw [if_neg hd, if_neg hd, if_pos ((hallnull r).mpr hnull)]
  · intro ⟨e, he⟩
    unfold generate_zhvi_animation
    rw [he]

/-- Witness for C6: the identifier `"abcde"` does not parse, and the
run produces no animation output on `dfBoston`. -/
theorem extract_abort_at :
    generate_zhvi_animation dfBoston "abcde" = none :=
  (extract_abort_iff dfBoston "abcde").2 ⟨ExtractError.invalidZip, by rfl⟩

/-- C9: a successful run names its output file by splicing the region
identifier string literally into `zhvi_animation_<identifier>.gif`. -/
theorem gif_filename_literal (df : DataFrame) (z : String) (out : RunOutput)
    (h : generate_zhvi_animation df z = some out) :
    out.gif_filename = "zhvi_animation_" ++ z ++ ".gif" := by
  unfold generate_zhvi_animation at h
  split at h
  · exact absurd h (by simp)
  · split at h
    · simp only [Option.some.injEq] at h
      rw [← h]
    · exact absurd h (by simp)

/-- Witness for C9: the leading zero of `"02134"` survives into the
filename even though the row key is the integer 2134. -/
theorem gif_filename_literal_at :
    (generate_zhvi_animation dfBoston "02134").map RunOutput.gif_filename =
      some "zhvi_animation_02134.gif" := by
  have hs : (generate_zhvi_animation dfBoston "02134").isSome = true := by decide
  obtain ⟨out, hout⟩ := Option.isSome_iff_exists.mp hs
  rw [hout, Option.map_some']
  exact congrArg some (gif_filename_literal dfBoston "02134" out hout)

/-! ### Dataset Fetcher cache behaviour (lines 17-37 and 44-48) -/

/-- The file-system and network state the fetch step can observe:
whether `zhvi_zip_data.csv` exists, and how many HTTP GETs were made. -/
structure FetchState where
  csvExists : Bool
  networkCalls : Nat
deriving DecidableEq, Repr

/-- `download_data` (lines 17-37): one GET request; on success the file
is written and `True` is returned, on failure `False`. -/
def download_data (s : FetchState) (requestSucceeds : Bool) :
    FetchState × Bool :=
  ({ csvExists := requestSucceeds || s.csvExists,
     networkCalls := s.networkCalls + 1 }, requestSucceeds)

/-- Step 1 of `generate_zhvi_animation` (lines 44-48): download only if
`os.path.exists(CSV_FILENAME)` is false; no staleness check. -/
def ensure_data (s : FetchState) (requestSucceeds : Bool) :
    FetchState × Bool :=
  if s.csvExists then (s, true)
  else download_data s requestSucceeds

/-- C7: when the dataset file already exists the run makes zero network
calls, and after any successful fetch step a second request (for any
region) adds zero further network calls. -/
theorem cached_no_network (s : FetchState) (b₁ b₂ : Bool) :
    (s.csvExists = true → (ensure_data s b₁).1.networkCalls = s.networkCalls) ∧
      ((ensure_data s b₁).2 = true →
        (ensure_data (ensure_data s b₁).1 b₂).1.networkCalls =
          (ensure_data s b₁).1.networkCalls) := by
  unfold ensure_data download_data
  rcases s with ⟨e, n⟩
  cases e <;> cases b₁ <;> simp

/-- Witness for C7: a pre-existing file costs zero calls, and a second
request after one successful download costs zero further calls. -/
theorem cached_no_network_at :
    (ensure_data ⟨true, 0⟩ true).1.networkCalls = 0 ∧
      (ensure_data (ensure_data ⟨false, 0⟩ true).1 false).1.networkCalls =
        (ensure_data ⟨false, 0⟩ true).1.networkCalls :=
  ⟨(cached_no_network ⟨true, 0⟩ true false).1 rfl,
   (cached_no_network ⟨false, 0⟩ true false).2 rfl⟩

end ZillowGif
